import Mathlib

/-!
Verification development for the bloom-finance repository.

Strings from the Python source are modelled as `List Char`.  The regular
expressions used by the institution parsers are embedded as specialised
matching functions (one per pattern), each following Python `re.search`
semantics for its pattern: leftmost match position, lazy (`+?`/`*?`) groups
take the shortest expansion, greedy character-class runs are maximal, and
`.` does not match a newline unless the source passed `re.DOTALL`.
Character classes `\d` and `\s` are modelled at their ASCII meaning.
-/

set_option maxRecDepth 4000

/-- Python value restricted to what the parsers store in the
`is_recurring` field: `utils.py` and `database_writer.py` store the text
string `'False'`, `gmail_parser.py` stores the Python boolean `False`. -/
inductive PyVal where
  | str : List Char → PyVal
  | bool : Bool → PyVal
deriving DecidableEq, Repr

/-- The transaction record built by `parse_transaction_details`.
`transaction_id` (a fresh uuid4) and `transaction_date` (local-time
`strftime` of the message timestamp) are nondeterministic /
environment-dependent and are not referenced by any claim, so they are
omitted from the embedded record. -/
structure Transaction where
  merchant : List Char
  bucket : List Char
  amount : List Char
  category : List Char
  subcategory : List Char
  account_name : List Char
  is_recurring : PyVal
deriving DecidableEq, Repr

/-- The environment configuration read by the parsers
(`VENMO_EMAIL`, `AMEX_EMAIL`, `CHASE_EMAIL`, `CAPITALONE_EMAIL`,
`WELLSFARGO_EMAIL`, `EMPLOYER`). -/
structure Config where
  venmo_email : List Char
  amex_email : List Char
  chase_email : List Char
  capitalone_email : List Char
  wells_fargo_email : List Char
  employer : List Char
deriving DecidableEq, Repr

/-- ASCII model of Python's `\s` class (`str.strip` whitespace). -/
def pyWs (c : Char) : Bool :=
  c == ' ' || c == '\t' || c == '\n' || c == '\r' || c == Char.ofNat 11 || c == Char.ofNat 12

/-- Dot `.` in a pattern compiled without `re.DOTALL`: any character except a newline. -/
def nonNL (c : Char) : Bool := c != '\n'

/-- The class `[\d,]` of the Chase direct-deposit / Wells Fargo amount patterns. -/
def pyDigitComma (c : Char) : Bool := c.isDigit || c == ','

/-- Python substring test `pat in s`. -/
def containsSub (pat : List Char) : List Char → Bool
  | [] => pat.isEmpty
  | s@(_ :: rest) => pat.isPrefixOf s || containsSub pat rest

/-- Python `s.split(sep)` for a one-character separator. -/
def pySplitChar (sep : Char) : List Char → List (List Char)
  | [] => [[]]
  | c :: rest =>
    let r := pySplitChar sep rest
    if c = sep then [] :: r
    else
      match r with
      | x :: xs => (c :: x) :: xs
      | [] => [[c]]

/-- Python `s.split(sep)` for a (non-empty) string separator.  The recursion
advances past a matched separator (`drop sep.length`), so it is made
structural on a fuel argument; `pySplitSub` supplies fuel `s.length`, which
every step strictly decreases below, so the fuel-exhausted arm is never
reached. -/
def pySplitSubAux (sep : List Char) : Nat → List Char → List (List Char)
  | _, [] => [[]]
  | 0, s => [s]
  | fuel + 1, c :: rest =>
    if sep ≠ [] ∧ sep.isPrefixOf (c :: rest) = true then
      [] :: pySplitSubAux sep fuel ((c :: rest).drop sep.length)
    else
      match pySplitSubAux sep fuel rest with
      | x :: xs => (c :: x) :: xs
      | [] => [[c]]

/-- Python `s.split(sep)` for a (non-empty) string separator. -/
def pySplitSub (sep s : List Char) : List (List Char) := pySplitSubAux sep s.length s

/-- Python `s.replace(pat, rep)` for a non-empty pattern: left-to-right,
non-overlapping, all occurrences.  Fueled like `pySplitSubAux`. -/
def pyReplaceAux (pat rep : List Char) : Nat → List Char → List Char
  | _, [] => []
  | 0, s => s
  | fuel + 1, c :: rest =>
    if pat ≠ [] ∧ pat.isPrefixOf (c :: rest) = true then
      rep ++ pyReplaceAux pat rep fuel ((c :: rest).drop pat.length)
    else
      c :: pyReplaceAux pat rep fuel rest

/-- Python `s.replace(pat, rep)` for a non-empty pattern. -/
def pyReplace (pat rep s : List Char) : List Char := pyReplaceAux pat rep s.length s

/-- Python `s.replace(pat, rep)` including the empty-pattern case
(`''.join` interleaving), which `str.replace` handles by inserting `rep`
before every character and at the end. -/
def pyReplaceAll (s pat rep : List Char) : List Char :=
  if pat = [] then rep ++ s.foldr (fun c acc => c :: (rep ++ acc)) [] else pyReplace pat rep s

/-- Python `s.find(c)`: index of the first occurrence, `-1` if absent. -/
def pyFind : List Char → Char → Int
  | [], _ => -1
  | c :: rest, t =>
    if c = t then 0
    else
      let r := pyFind rest t
      if r < 0 then -1 else r + 1

/-- Python slice `s[start:stop]` (step 1), supporting negative indices. -/
def pySlice (s : List Char) (start stop : Int) : List Char :=
  let n : Int := s.length
  let st : Int := if start < 0 then max (start + n) 0 else min start n
  let en : Int := if stop < 0 then max (stop + n) 0 else min stop n
  (s.drop st.toNat).take (en - st).toNat

/-- Python slice `s[-n:]`. -/
def pyLastN (n : Nat) (s : List Char) : List Char := s.drop (s.length - n)

/-- Python `s.strip()` at its ASCII meaning. -/
def pyStrip (s : List Char) : List Char :=
  ((s.dropWhile pyWs).reverse.dropWhile pyWs).reverse

/-- The function `extract_email` from `utils.py`, `gmail_parser.py` and
`gmail_watcher.py` (all three are line-identical):
`email_string[email_string.find('<')+1:email_string.find('>')]`. -/
def extract_email (email_string : List Char) : List Char :=
  pySlice email_string (pyFind email_string '<' + 1) (pyFind email_string '>')

/-- The function `is_email_inscope` from `utils.py` / `gmail_parser.py`.  Time points are
modelled as integers: the email side is `int(email_timestamp)/1000` seconds
converted to a UTC datetime, i.e. `email_timestamp` milliseconds
(`email_timestamp * 1000` microseconds); the cutoff side is the
`strptime`-parsed `last_update_time` with microsecond precision, modelled
directly as `cutoff_us` microseconds since the epoch.  `datetime`
comparison is chronological comparison of these microsecond offsets. -/
def is_email_inscope (email_timestamp_ms cutoff_us : Int) : Bool :=
  decide (email_timestamp_ms * 1000 > cutoff_us)

/-- Consume a literal: `some rest` iff `lit` is a prefix. -/
def dropLit (lit s : List Char) : Option (List Char) :=
  if lit.isPrefixOf s then some (s.drop lit.length) else none

/-- Match `<cls>+\.\d{2}` at the head of `s` (the amount shape
`\d+\.\d{2}` or `[\d,]+\.\d{2}`): a maximal non-empty run of `cls`
characters, a dot, two digits.  Returns the matched text and the rest.
Backtracking never shortens the run because `cls` excludes `'.'` for
every class used. -/
def numDotTwo (cls : Char → Bool) (s : List Char) : Option (List Char × List Char) :=
  let ds := s.takeWhile cls
  if ds.isEmpty then none
  else
    match s.drop ds.length with
    | '.' :: d1 :: d2 :: rest =>
      if d1.isDigit && d2.isDigit then some (ds ++ '.' :: d1 :: d2 :: [], rest) else none
    | _ => none

/-- Match exactly `n` digits (`\d{n}`). -/
def exactDigits : Nat → List Char → Option (List Char × List Char)
  | 0, s => some ([], s)
  | _ + 1, [] => none
  | n + 1, c :: rest =>
    if c.isDigit then (exactDigits n rest).map (fun p => (c :: p.1, p.2)) else none

/-- Lazy one-or-more group `(<allowed>+?)` followed by a context matched by
`tailOk`: the group takes the shortest non-empty expansion of `allowed`
characters after which `tailOk` holds. -/
def lazyGroupPlus (allowed : Char → Bool) (tailOk : List Char → Bool) : List Char → Option (List Char)
  | [] => none
  | c :: rest =>
    if allowed c then
      if tailOk rest then some [c]
      else (lazyGroupPlus allowed tailOk rest).map (c :: ·)
    else none

/-- Lazy zero-or-more group `(<allowed>*?)` followed by a context matched
by `tailOk`: shortest (possibly empty) expansion. -/
def lazyGroupStar (allowed : Char → Bool) (tailOk : List Char → Bool) : List Char → Option (List Char)
  | [] => if tailOk [] then some [] else none
  | c :: rest =>
    if tailOk (c :: rest) then some []
    else if allowed c then (lazyGroupStar allowed tailOk rest).map (c :: ·) else none

/-- Model of `re.search`: try the matcher at every position, leftmost first. -/
def reSearch (f : List Char → Option (List Char)) : List Char → Option (List Char)
  | [] => f []
  | c :: rest =>
    match f (c :: rest) with
    | some g => some g
    | none => reSearch f rest

/-- Context of the Venmo merchant group: `' \$\d+\.\d{2}'` must follow. -/
def venmoTail : List Char → Bool
  | c1 :: c2 :: rest => c1 == ' ' && c2 == '$' && (numDotTwo Char.isDigit rest).isSome
  | _ => false

/-- Embeds `re.search(r'You paid (.+?) \$\d+\.\d{2}', subject)` group 1, at one position. -/
def youPaidAt (s : List Char) : Option (List Char) :=
  match dropLit ("You paid ").data s with
  | some rest => lazyGroupPlus nonNL venmoTail rest
  | none => none

/-- Embeds `re.search(r'\n\$([0-9]+\.[0-9]{2})\*', email_content)` group 1, at one position. -/
def amexAmtAt : List Char → Option (List Char)
  | '\n' :: '$' :: rest =>
    match numDotTwo Char.isDigit rest with
    | some (g, rest') =>
      match rest' with
      | '*' :: _ => some g
      | _ => none
    | none => none
  | _ => none

/-- Embeds `re.search(r'Account Ending: (\d{5})', email_content)` group 1, at one position. -/
def amexAcctAt (s : List Char) : Option (List Char) :=
  match dropLit ("Account Ending: ").data s with
  | some rest => (exactDigits 5 rest).map (·.1)
  | none => none

/-- Embeds `re.search(r'Recipient\n(.*?)\nAmount', email_content)` group 1, at one position. -/
def chaseRecipientAt (s : List Char) : Option (List Char) :=
  match dropLit ("Recipient\n").data s with
  | some rest => lazyGroupStar nonNL (fun t => ("\nAmount").data.isPrefixOf t) rest
  | none => none

/-- Embeds `re.search(r'Amount\n\$(\d+\.\d{2})', email_content)` group 1, at one position. -/
def chaseAmountAt (s : List Char) : Option (List Char) :=
  match dropLit ("Amount\n$").data s with
  | some rest => (numDotTwo Char.isDigit rest).map (·.1)
  | none => none

/-- Embeds `re.search(r'Account ending in\n\(\.\.\.(\d{4})\)\nSent on', email_content)`
group 1, at one position. -/
def chaseSentAcctAt (s : List Char) : Option (List Char) :=
  match dropLit ("Account ending in\n(...").data s with
  | some rest =>
    match exactDigits 4 rest with
    | some (ds, rest') =>
      match dropLit (")\nSent on").data rest' with
      | some _ => some ds
      | none => none
    | none => none
  | none => none

/-- The class `[A-Za-z0-9\s\*\.\#\']` of the Chase card-purchase merchant pattern. -/
def chaseCcClass (c : Char) : Bool :=
  c.isAlpha || c.isDigit || pyWs c || c == '*' || c == '.' || c == '#' || c == Char.ofNat 39

/-- Embeds `re.search(r'transaction with ([A-Za-z0-9\s\*\.\#\']+)', subject)` group 1,
at one position (greedy maximal class run). -/
def chaseCardMerchantAt (s : List Char) : Option (List Char) :=
  match dropLit ("transaction with ").data s with
  | some rest =>
    let run := rest.takeWhile chaseCcClass
    if run.isEmpty then none else some run
  | none => none

/-- Embeds `re.search(r'\$(\d+\.\d{2})', subject)` group 1, at one position. -/
def dollarAmtAt : List Char → Option (List Char)
  | '$' :: rest => (numDotTwo Char.isDigit rest).map (·.1)
  | _ => none

/-- Embeds `re.search(r'\(\.\.\.(\d+)\)', email_content)` group 1, at one position
(greedy digit run, closing parenthesis must follow). -/
def parenDigitsAt : List Char → Option (List Char)
  | '(' :: rest =>
    match dropLit ("...").data rest with
    | some r1 =>
      let run := r1.takeWhile Char.isDigit
      if run.isEmpty then none
      else
        match r1.drop run.length with
        | ')' :: _ => some run
        | _ => none
    | none => none
  | _ => none

/-- Embeds `re.search(r'\$([\d,]+\.\d{2})', subject)` group 1, at one position. -/
def ddAmtAt : List Char → Option (List Char)
  | '$' :: rest => (numDotTwo pyDigitComma rest).map (·.1)
  | _ => none

/-- Embeds `re.search(r'\((\.\.\.(\d{4}))\)', subject)` — precisely
`r'\((\.\.\.\d{4})\)'` — group 1 (`...` plus four digits), at one position. -/
def ddAcctAt : List Char → Option (List Char)
  | '(' :: rest =>
    match dropLit ("...").data rest with
    | some r1 =>
      match exactDigits 4 r1 with
      | some (ds, r2) =>
        match r2 with
        | ')' :: _ => some ('.' :: '.' :: '.' :: ds)
        | _ => none
      | none => none
    | none => none
  | _ => none

/-- Embeds `re.search(r'at (.*?)\, a pending authorization or purchase', email_content)`
group 1, at one position. -/
def capOneAtAt (s : List Char) : Option (List Char) :=
  match dropLit ("at ").data s with
  | some rest =>
    lazyGroupStar nonNL (fun t => (", a pending authorization or purchase").data.isPrefixOf t) rest
  | none => none

/-- Embeds `re.search(r'amount of \$(\d+\.\d{2})', email_content)` group 1, at one position. -/
def capOneAmtAt (s : List Char) : Option (List Char) :=
  match dropLit ("amount of $").data s with
  | some rest => (numDotTwo Char.isDigit rest).map (·.1)
  | none => none

/-- Embeds `re.search(r'ending in (\d{4})', email_content)` group 1, at one position. -/
def capOneAcctAt (s : List Char) : Option (List Char) :=
  match dropLit ("ending in ").data s with
  | some rest => (exactDigits 4 rest).map (·.1)
  | none => none

/-- Embeds `re.search(r'Merchant detail\s*(.*?)\s*View Accounts', email_content, re.DOTALL)`
group 1, at one position.  The greedy `\s*` runs are deterministic here:
both are followed by a non-whitespace literal (or by the lazy any-char
group), so Python's backtracking resolves to "skip the maximal whitespace
run"; the lazy group then takes the shortest expansion after which
(maximal whitespace followed by) `View Accounts` matches. -/
def wfMerchantAt (s : List Char) : Option (List Char) :=
  match dropLit ("Merchant detail").data s with
  | some rest =>
    lazyGroupStar (fun _ => true)
      (fun t => ("View Accounts").data.isPrefixOf (t.dropWhile pyWs))
      (rest.dropWhile pyWs)
  | none => none

/-- Embeds `re.search(r'Amount\s*\$([0-9,]+\.\d{2})\s*Merchant detail', email_content)`
group 1, at one position. -/
def wfAmtAt (s : List Char) : Option (List Char) :=
  match dropLit ("Amount").data s with
  | some r1 =>
    match r1.dropWhile pyWs with
    | '$' :: r2 =>
      match numDotTwo pyDigitComma r2 with
      | some (g, r3) =>
        if ("Merchant detail").data.isPrefixOf (r3.dropWhile pyWs) then some g else none
      | none => none
    | _ => none
  | none => none

/-- Embeds `re.search(r'Credit card\s*\.\.\.(\d+)\s*Amount', email_content)` group 1,
at one position. -/
def wfAcctAt (s : List Char) : Option (List Char) :=
  match dropLit ("Credit card").data s with
  | some r1 =>
    match dropLit ("...").data (r1.dropWhile pyWs) with
    | some r2 =>
      let run := r2.takeWhile Char.isDigit
      if run.isEmpty then none
      else if ("Amount").data.isPrefixOf ((r2.drop run.length).dropWhile pyWs) then some run
      else none
    | none => none
  | none => none

/-- Venmo branch of `parse_transaction_details` (`utils.py` 287-304,
`gmail_parser.py` 237-254) and `TransactionParser.parse_venmo_transaction`
(`database_writer.py` 88-107), which are line-identical except for the
`is_recurring` literal, passed here as `recurring`.  `none` models a raised
`IndexError`/`AttributeError` inside the branch (any such failure leaves
later local variables unassigned). -/
def venmoTxn (subject : List Char) (recurring : PyVal) : Option Transaction :=
  match (pySplitChar '$' subject).get? 1 with
  | none => none
  | some amount0 =>
    if containsSub ("You paid").data subject then
      match reSearch youPaidAt subject with
      | some merchant =>
        some ⟨merchant, ("Expense").data, amount0, [], [], ("Venmo").data, recurring⟩
      | none => none
    else
      some ⟨(pySplitSub (" paid you").data subject).headD [], ("Expense").data,
        '-' :: amount0, [], [], ("Venmo").data, recurring⟩

/-- American Express branch (`utils.py` 310-323, `gmail_parser.py` 260-273,
`database_writer.py` 109-125): merchant is line index 9 of the body. -/
def amexTxn (email_content : List Char) (recurring : PyVal) : Option Transaction :=
  match (pySplitChar '\n' email_content).get? 9 with
  | none => none
  | some merchant =>
    match reSearch amexAmtAt email_content with
    | none => none
    | some amount =>
      match reSearch amexAcctAt email_content with
      | none => none
      | some acct =>
        some ⟨merchant, ("Expense").data, amount, [], [],
          ("American Express ").data ++ acct, recurring⟩

/-- Chase `'You sent'` transfer branch (`utils.py` 329-341 and the identical
code in `gmail_parser.py` / `database_writer.py`). -/
def chaseSentTxn (email_content : List Char) (recurring : PyVal) : Option Transaction :=
  match reSearch chaseRecipientAt email_content with
  | none => none
  | some merchant =>
    match reSearch chaseAmountAt email_content with
    | none => none
    | some amount =>
      match reSearch chaseSentAcctAt email_content with
      | none => none
      | some acct =>
        some ⟨merchant, [], amount, [], [], ("Chase ").data ++ acct, recurring⟩

/-- Chase `'transaction with'` card-purchase branch. -/
def chaseCardTxn (subject email_content : List Char) (recurring : PyVal) : Option Transaction :=
  match reSearch chaseCardMerchantAt subject with
  | none => none
  | some merchant =>
    match reSearch dollarAmtAt subject with
    | none => none
    | some amount =>
      match reSearch parenDigitsAt email_content with
      | none => none
      | some acct =>
        some ⟨merchant, [], amount, [], [], ("Chase ").data ++ acct, recurring⟩

/-- Chase `'direct deposit'` branch (`utils.py` 355-367,
`database_writer.py` 153-163): merchant is the configured employer, the
amount group has its commas removed (`.replace(',', '')`), the account is
`'Chase '` plus `group(1)[-4:]` where the group is `...` + four digits. -/
def chaseDDTxn (cfg : Config) (subject : List Char) (recurring : PyVal) : Option Transaction :=
  match reSearch ddAmtAt subject with
  | none => none
  | some amtG =>
    match reSearch ddAcctAt subject with
    | none => none
    | some acctG =>
      some ⟨cfg.employer, ("Income").data, pyReplaceAll amtG [','] [],
        ("Paychecks").data, [], ("Chase ").data ++ pyLastN 4 acctG, recurring⟩

/-- Capital One branch: the merchant group is additionally
`.split(' at ')[-1]`. -/
def capOneTxn (email_content : List Char) (recurring : PyVal) : Option Transaction :=
  match reSearch capOneAtAt email_content with
  | none => none
  | some merchG =>
    match reSearch capOneAmtAt email_content with
    | none => none
    | some amount =>
      match reSearch capOneAcctAt email_content with
      | none => none
      | some acct =>
        some ⟨(pySplitSub (" at ").data merchG).getLastD [], [], amount, [], [],
          ("Capital One ").data ++ acct, recurring⟩

/-- Wells Fargo branch: the merchant group is additionally `.strip()`ed. -/
def wfTxn (email_content : List Char) (recurring : PyVal) : Option Transaction :=
  match reSearch wfMerchantAt email_content with
  | none => none
  | some merchG =>
    match reSearch wfAmtAt email_content with
    | none => none
    | some amount =>
      match reSearch wfAcctAt email_content with
      | none => none
      | some acct =>
        some ⟨pyStrip merchG, [], amount, [], [],
          ("Wells Fargo ").data ++ acct, recurring⟩

/-- In `utils.py`, the `try` around the branch chain catches a pattern-match
failure, but `transaction_found` is already `True` and the failing branch
left at least one of the locals read by the final dict construction
unassigned (the last, `transaction_recurring`, is always among them), so
the construction after the `except` raises `UnboundLocalError`, which
escapes `parse_transaction_details`.  In `gmail_parser.py` there is no
`try` and the original exception escapes directly.  Both are modelled as
`Except.error ()`. -/
def toExcept : Option Transaction → Except Unit (Option Transaction)
  | some t => Except.ok (some t)
  | none => Except.error ()

namespace utils

/-- The function `parse_transaction_details` from `src/backend/utils.py` (lines 250-424):
scope filter, then dispatch on the sender address, then the per-institution
triggered branch.  `Except.ok none` is the returned empty dict,
`Except.ok (some t)` a returned transaction dict, `Except.error ()` an
uncaught exception escaping the call (see `toExcept`). -/
def parse_transaction_details (cfg : Config) (subject from_email : List Char)
    (email_timestamp : Int) (email_content : List Char) (last_update_time : Int) :
    Except Unit (Option Transaction) :=
  if is_email_inscope email_timestamp last_update_time then
    if from_email = cfg.venmo_email then
      if containsSub ("paid you").data subject || containsSub ("You paid").data subject then
        toExcept (venmoTxn subject (PyVal.str ("False").data))
      else Except.ok none
    else if from_email = cfg.amex_email then
      if subject = ("Large Purchase Approved").data then
        toExcept (amexTxn email_content (PyVal.str ("False").data))
      else Except.ok none
    else if from_email = cfg.chase_email then
      if containsSub ("You sent").data subject then
        toExcept (chaseSentTxn email_content (PyVal.str ("False").data))
      else if containsSub ("transaction with").data subject then
        toExcept (chaseCardTxn subject email_content (PyVal.str ("False").data))
      else if containsSub ("direct deposit").data subject then
        toExcept (chaseDDTxn cfg subject (PyVal.str ("False").data))
      else Except.ok none
    else if from_email = cfg.capitalone_email then
      if subject = ("A new transaction was charged to your account").data then
        toExcept (capOneTxn email_content (PyVal.str ("False").data))
      else Except.ok none
    else if from_email = cfg.wells_fargo_email then
      if containsSub ("You made a credit card purchase of").data subject then
        toExcept (wfTxn email_content (PyVal.str ("False").data))
      else Except.ok none
    else Except.ok none
  else Except.ok none

end utils

namespace gmailParser

/-- The function `parse_transaction_details` from `src/backend/gmail_parser.py`
(lines 201-358).  Differences from the `utils.py` version: no `try` at
all (a pattern-match failure escapes directly, same observable
`Except.error ()`), `transaction_recurring = False` is the Python boolean,
and the Chase chain has no `'direct deposit'` branch. -/
def parse_transaction_details (cfg : Config) (subject from_email : List Char)
    (email_timestamp : Int) (email_content : List Char) (last_update_time : Int) :
    Except Unit (Option Transaction) :=
  if is_email_inscope email_timestamp last_update_time then
    if from_email = cfg.venmo_email then
      if containsSub ("paid you").data subject || containsSub ("You paid").data subject then
        toExcept (venmoTxn subject (PyVal.bool false))
      else Except.ok none
    else if from_email = cfg.amex_email then
      if subject = ("Large Purchase Approved").data then
        toExcept (amexTxn email_content (PyVal.bool false))
      else Except.ok none
    else if from_email = cfg.chase_email then
      if containsSub ("You sent").data subject then
        toExcept (chaseSentTxn email_content (PyVal.bool false))
      else if containsSub ("transaction with").data subject then
        toExcept (chaseCardTxn subject email_content (PyVal.bool false))
      else Except.ok none
    else if from_email = cfg.capitalone_email then
      if subject = ("A new transaction was charged to your account").data then
        toExcept (capOneTxn email_content (PyVal.bool false))
      else Except.ok none
    else if from_email = cfg.wells_fargo_email then
      if containsSub ("You made a credit card purchase of").data subject then
        toExcept (wfTxn email_content (PyVal.bool false))
      else Except.ok none
    else Except.ok none
  else Except.ok none

end gmailParser

namespace databaseWriter

/-- The method `TransactionParser.parse_transaction_details` from
`src/cloud_functions/database_writer/database_writer.py` (lines 63-86):
no scope filter; the `try` wraps the sub-parser calls and returns `None`
on any exception, so a failed branch and a non-triggering email are both
`none`.  The sub-parser bodies are line-identical to the branch helpers
above with the string `'False'`. -/
def parse_transaction_details (cfg : Config) (subject from_email : List Char)
    (email_content : List Char) : Option Transaction :=
  if from_email = cfg.venmo_email then
    if containsSub ("paid you").data subject || containsSub ("You paid").data subject then
      venmoTxn subject (PyVal.str ("False").data)
    else none
  else if from_email = cfg.amex_email then
    if subject = ("Large Purchase Approved").data then
      amexTxn email_content (PyVal.str ("False").data)
    else none
  else if from_email = cfg.chase_email then
    if containsSub ("You sent").data subject then
      chaseSentTxn email_content (PyVal.str ("False").data)
    else if containsSub ("transaction with").data subject then
      chaseCardTxn subject email_content (PyVal.str ("False").data)
    else if containsSub ("direct deposit").data subject then
      chaseDDTxn cfg subject (PyVal.str ("False").data)
    else none
  else if from_email = cfg.capitalone_email then
    if subject = ("A new transaction was charged to your account").data then
      capOneTxn email_content (PyVal.str ("False").data)
    else none
  else if from_email = cfg.wells_fargo_email then
    if containsSub ("You made a credit card purchase of").data subject then
      wfTxn email_content (PyVal.str ("False").data)
    else none
  else none

end databaseWriter

/-- A row of the `rules` table as read by `backfill_transaction_rules`
(`SELECT pattern, replacement FROM rules`) and consumed by
`apply_rules_engine` (`rule['pattern']`, `rule['replacement']`). -/
structure Rule where
  pattern : List Char
  replacement : List Char
deriving DecidableEq, Repr

/-- The function `apply_rules_engine` from `src/backend/utils.py` (lines 513-530): for
each rule in list order, if the pattern is a substring of the current
merchant name, replace all its occurrences; the result feeds the next rule. -/
def apply_rules_engine (merchant : List Char) (rules : List Rule) : List Char :=
  match rules with
  | [] => merchant
  | r :: rest =>
    apply_rules_engine
      (if containsSub r.pattern merchant then pyReplaceAll merchant r.pattern r.replacement
       else merchant)
      rest

/-- A row of the `transactions` table as read by
`backfill_transaction_rules` (`SELECT transaction_id, merchant FROM
transactions`); `transaction_id` is the table's primary key. -/
structure TxnRow where
  transaction_id : List Char
  merchant : List Char
deriving DecidableEq, Repr

/-- The loop of `backfill_transaction_rules` (`utils.py` 542-560): all rows
are fetched before any update, each row whose merchant changes under the
rules engine is rewritten (`UPDATE ... WHERE transaction_id = ?`) and
counted.  Returns `(updated_count, resulting transactions table)`. -/
def backfillLoop (rules : List Rule) : List TxnRow → Nat × List TxnRow
  | [] => (0, [])
  | t :: rest =>
    let nm := apply_rules_engine t.merchant rules
    let r := backfillLoop rules rest
    if nm = t.merchant then (r.1, t :: r.2) else (r.1 + 1, ⟨t.transaction_id, nm⟩ :: r.2)

/-- SQLite database state for the backend: the set of table names that
exist, plus the rows of the two tables the rules engine touches.
`rules_tbl` holds the rows of a table named `rules` when such a table
exists.  (Contents of `user_data`, `categories`, `subcategories` and
`transaction_rules` are not referenced by the claims.) -/
structure SQLiteDB where
  tables : List (List Char)
  transactions : List TxnRow
  rules_tbl : List Rule
deriving DecidableEq, Repr

/-- The tables created by `init_db` in `src/backend/database.py`
(lines 20-61): there is no table named `rules`. -/
def initTables : List (List Char) :=
  [("user_data").data, ("categories").data, ("subcategories").data,
   ("transactions").data, ("transaction_rules").data]

/-- The function `backfill_transaction_rules` from `src/backend/utils.py`
(lines 532-560).  Its first statement is
`db.execute('SELECT pattern, replacement FROM rules')`: if the database has
no `rules` table, sqlite raises `OperationalError`, modelled as
`Except.error`. -/
def backfill_transaction_rules (db : SQLiteDB) : Except (List Char) (Nat × SQLiteDB) :=
  if ("rules").data ∈ db.tables then
    let r := backfillLoop db.rules_tbl db.transactions
    Except.ok (r.1, { db with transactions := r.2 })
  else Except.error ("no such table: rules").data

/-- The route handler `add_transaction_rule` from `src/backend/routes.py` (lines 236-254):
inside a `try`, it executes `INSERT INTO rules (rule_id,
merchant_original_name, merchant_renamed_name, rule_created_date) VALUES
...`, then runs `backfill_transaction_rules`, and returns the backfill
count; any exception is converted to an HTTP 400 (`Except.error`).  The
schema created by `init_db` has no `rules` table (only
`transaction_rules`), so the `INSERT` raises `OperationalError` for every
database this application creates; the success branch below additionally
records the inserted name pair in `rules_tbl` (were such a table present,
its `pattern`/`replacement` columns would not even match the inserted
column names). -/
def add_transaction_rule (db : SQLiteDB)
    (merchant_original_name merchant_renamed_name : List Char) :
    Except (List Char) (SQLiteDB × Nat) :=
  if ("rules").data ∈ db.tables then
    let db1 : SQLiteDB :=
      { db with rules_tbl := db.rules_tbl ++ [⟨merchant_original_name, merchant_renamed_name⟩] }
    match backfill_transaction_rules db1 with
    | Except.ok (n, db2) => Except.ok (db2, n)
    | Except.error e => Except.error e
  else Except.error ("no such table: rules").data

/-- A document of the Firestore processed-messages collection
(`gmail_watcher.py` `mark_message_as_processed` writes
`{'processed': True, 'timestamp': message_timestamp}`). -/
structure ProcessedDoc where
  processed : Bool
  timestamp : List Char
deriving DecidableEq, Repr

/-- A Firestore collection, modelled at its interface as a document store
keyed by document id. -/
abbrev FsCollection := List (List Char × ProcessedDoc)

/-- Firestore `collection.document(id).set(doc)`: keyed upsert. -/
def fsSet (coll : FsCollection) (docId : List Char) (doc : ProcessedDoc) : FsCollection :=
  (docId, doc) :: coll.filter (fun p => p.1 != docId)

/-- Firestore `collection.document(id).get()`. -/
def fsGet (coll : FsCollection) (docId : List Char) : Option ProcessedDoc :=
  (coll.find? (fun p => p.1 == docId)).map (·.2)

/-- The method `FirestoreService.is_message_processed` from `gmail_watcher.py`
(lines 218-221): existence check by document id. -/
def is_message_processed (coll : FsCollection) (message_id : List Char) : Bool :=
  (fsGet coll message_id).isSome

/-- The method `FirestoreService.mark_message_as_processed` from `gmail_watcher.py`
(lines 223-234): `if message_id is not None`, write
`{'processed': True, 'timestamp': message_timestamp}` under the id;
otherwise `raise ValueError('Message ID cannot be none.')`.  The absent /
`None` id is modelled as `none`; any string id (including the empty
string) is `some`. -/
def mark_message_as_processed (coll : FsCollection) (message_id : Option (List Char))
    (message_timestamp : List Char) : Except (List Char) FsCollection :=
  match message_id with
  | some mid => Except.ok (fsSet coll mid ⟨true, message_timestamp⟩)
  | none => Except.error ("Message ID cannot be none.").data

/-- A concrete configuration used by the closed claim instances. -/
def ccfg : Config :=
  ⟨("venmo@venmo.com").data, ("AmericanExpress@welcome.americanexpress.com").data,
   ("no.reply.alerts@chase.com").data, ("capitalone@notification.capitalone.com").data,
   ("alerts@notify.wellsfargo.com").data, ("Acme Corp").data⟩

theorem isPrefixOf_append_self (a b : List Char) : a.isPrefixOf (a ++ b) = true := by
  simp [List.isPrefixOf_iff_prefix]

theorem dropLit_append (lit rest : List Char) : dropLit lit (lit ++ rest) = some rest := by
  simp [dropLit, isPrefixOf_append_self, List.drop_left]

theorem containsSub_of_prefix (pat s : List Char) (h : pat.isPrefixOf s = true)
    (pre : List Char) : containsSub pat (pre ++ s) = true := by
  induction pre with
  | nil =>
    cases s with
    | nil =>
      cases pat with
      | nil => simp [containsSub]
      | cons c cs => simp [List.isPrefixOf] at h
    | cons c rest => simp [containsSub, h]
  | cons p pre ih => simp [containsSub, ih]

theorem takeWhile_append_stop (p : Char → Bool) (a : List Char) (c : Char) (b : List Char)
    (ha : ∀ x ∈ a, p x = true) (hc : p c = false) :
    (a ++ c :: b).takeWhile p = a := by
  induction a with
  | nil => simp [List.takeWhile_cons, hc]
  | cons x a ih =>
    have hx : p x = true := ha x (by simp)
    simp only [List.cons_append, List.takeWhile_cons, hx, if_true]
    rw [ih (fun y hy => ha y (by simp [hy]))]

theorem numDotTwo_eq (cls : Char → Bool) (a : List Char) (d1 d2 : Char) (rest : List Char)
    (ha : ∀ x ∈ a, cls x = true) (hne : a ≠ []) (hdot : cls '.' = false)
    (h1 : d1.isDigit = true) (h2 : d2.isDigit = true) :
    numDotTwo cls (a ++ '.' :: d1 :: d2 :: rest) = some (a ++ '.' :: d1 :: d2 :: [], rest) := by
  unfold numDotTwo
  rw [takeWhile_append_stop cls a '.' _ ha hdot]
  have hlen : (a ++ '.' :: d1 :: d2 :: rest).drop a.length = '.' :: d1 :: d2 :: rest :=
    List.drop_left a _
  simp [List.isEmpty_iff, hne, hlen, h1, h2]

theorem exactDigits_append (ds rest : List Char) (h : ∀ c ∈ ds, c.isDigit = true) :
    exactDigits ds.length (ds ++ rest) = some (ds, rest) := by
  induction ds with
  | nil => simp [exactDigits]
  | cons c ds ih =>
    have hc : c.isDigit = true := h c (by simp)
    simp only [List.length_cons, List.cons_append, exactDigits, hc, if_true, List.append_eq]
    rw [ih (fun y hy => h y (by simp [hy]))]
    rfl

theorem reSearch_here (f : List Char → Option (List Char)) (s : List Char) (g : List Char)
    (h : f s = some g) : reSearch f s = some g := by
  cases s <;> simp [reSearch, h]

theorem reSearch_skip (f : List Char → Option (List Char)) (key : Char)
    (hf : ∀ c s, c ≠ key → f (c :: s) = none) (pre : List Char) (rest : List Char)
    (hpre : key ∉ pre) : reSearch f (pre ++ rest) = reSearch f rest := by
  induction pre with
  | nil => rfl
  | cons p pre ih =>
    have hp : p ≠ key := fun hpk => hpre (by simp [hpk])
    simp only [List.cons_append, reSearch, hf p _ hp]
    exact ih (fun hm => hpre (by simp [hm]))

theorem lazyGroupPlus_exact (allowed : Char → Bool) (tailOk : List Char → Bool)
    (m tail : List Char) (hm : m ≠ [])
    (hall : ∀ c ∈ m, allowed c = true)
    (htail : tailOk tail = true)
    (hfail : ∀ k, 0 < k → k < m.length → tailOk (m.drop k ++ tail) = false) :
    lazyGroupPlus allowed tailOk (m ++ tail) = some m := by
  induction m with
  | nil => exact absurd rfl hm
  | cons c m ih =>
    have hc : allowed c = true := hall c (by simp)
    cases m with
    | nil => simp [lazyGroupPlus, hc, htail]
    | cons c2 m2 =>
      have hdrop : tailOk ((c2 :: m2) ++ tail) = false := by
        have h1 := hfail 1 (by omega) (by simp)
        simpa using h1
      have ihres : lazyGroupPlus allowed tailOk ((c2 :: m2) ++ tail) = some (c2 :: m2) := by
        refine ih (by simp) (fun y hy => hall y (by simp [hy])) ?_
        intro k hk0 hklt
        have h2 := hfail (k + 1) (by omega) (by simp only [List.length_cons] at hklt ⊢; omega)
        simpa using h2
      have step : lazyGroupPlus allowed tailOk ((c :: c2 :: m2) ++ tail)
          = (lazyGroupPlus allowed tailOk ((c2 :: m2) ++ tail)).map (c :: ·) := by
        show (if allowed c = true then
                if tailOk ((c2 :: m2) ++ tail) = true then some [c]
                else (lazyGroupPlus allowed tailOk ((c2 :: m2) ++ tail)).map (c :: ·)
              else none) = _
        rw [if_pos hc, if_neg (by rw [hdrop]; exact Bool.false_ne_true)]
      rw [step, ihres]
      rfl

theorem pySplitChar_not_mem (sep : Char) (s : List Char) (h : sep ∉ s) :
    pySplitChar sep s = [s] := by
  induction s with
  | nil => rfl
  | cons c rest ih =>
    have hc : ¬ (c = sep) := fun hcs => h (by simp [hcs])
    have hr := ih (fun hm => h (by simp [hm]))
    simp [pySplitChar, hc, hr]

theorem pySplitChar_append (sep : Char) (a b : List Char) (ha : sep ∉ a) :
    pySplitChar sep (a ++ sep :: b) = a :: pySplitChar sep b := by
  induction a with
  | nil => simp [pySplitChar]
  | cons c a ih =>
    have hc : ¬ (c = sep) := fun hcs => ha (by simp [hcs])
    have hr := ih (fun hm => ha (by simp [hm]))
    simp [pySplitChar, hc, hr]

theorem pySplitSubAux_ne_nil (sep : List Char) (fuel : Nat) (s : List Char) :
    pySplitSubAux sep fuel s ≠ [] := by
  cases s with
  | nil => cases fuel <;> simp [pySplitSubAux]
  | cons c rest =>
    cases fuel with
    | zero => simp [pySplitSubAux]
    | succ f =>
      rw [pySplitSubAux]
      split
      · simp
      · cases pySplitSubAux sep f rest <;> simp

theorem pySplitSub_ne_nil (sep s : List Char) : pySplitSub sep s ≠ [] :=
  pySplitSubAux_ne_nil sep s.length s

theorem pySplitSubAux_first (sep m rest : List Char) (hsep : sep ≠ [])
    (hocc : ∀ i, i < m.length → sep.isPrefixOf ((m ++ sep ++ rest).drop i) = false)
    (fuel : Nat) (hfuel : (m ++ sep ++ rest).length ≤ fuel) :
    (pySplitSubAux sep fuel (m ++ sep ++ rest)).headD [] = m := by
  induction m generalizing fuel with
  | nil =>
    simp only [List.nil_append] at *
    cases hs : sep with
    | nil => exact absurd hs hsep
    | cons c cs =>
      rw [hs] at hfuel
      cases fuel with
      | zero => simp at hfuel
      | succ f =>
        have hpre : (c :: cs).isPrefixOf (c :: (cs ++ rest)) = true := by
          rw [← List.cons_append]
          exact isPrefixOf_append_self _ _
        have hshape : (c :: cs) ++ rest = c :: (cs ++ rest) := rfl
        rw [hshape, pySplitSubAux, if_pos ⟨by simp, hpre⟩]
        rfl
  | cons c m ih =>
    have hshape : (c :: m) ++ sep ++ rest = c :: (m ++ sep ++ rest) := by simp
    have h0 : sep.isPrefixOf (c :: (m ++ sep ++ rest)) = false := by
      have h1 := hocc 0 (by simp)
      rw [hshape] at h1
      simpa using h1
    have hocc' : ∀ i, i < m.length → sep.isPrefixOf ((m ++ sep ++ rest).drop i) = false := by
      intro i hi
      have h1 := hocc (i + 1) (by simp only [List.length_cons]; omega)
      rw [hshape] at h1
      simpa using h1
    rw [hshape] at hfuel
    cases fuel with
    | zero => simp at hfuel
    | succ f =>
      rw [hshape, pySplitSubAux, if_neg (by
        rintro ⟨-, hpref⟩
        rw [h0] at hpref
        exact absurd hpref (by simp))]
      have hne := pySplitSubAux_ne_nil sep f (m ++ sep ++ rest)
      cases hval : pySplitSubAux sep f (m ++ sep ++ rest) with
      | nil => exact absurd hval hne
      | cons x xs =>
        have hx : x = m := by
          have hih := ih hocc' f (by simp only [List.length_cons] at hfuel; omega)
          rw [hval] at hih
          simpa using hih
        simp [hx]

theorem pySplitSub_first (sep m rest : List Char) (hsep : sep ≠ [])
    (hocc : ∀ i, i < m.length → sep.isPrefixOf ((m ++ sep ++ rest).drop i) = false) :
    (pySplitSub sep (m ++ sep ++ rest)).headD [] = m :=
  pySplitSubAux_first sep m rest hsep hocc (m ++ sep ++ rest).length le_rfl

theorem pyReplaceAux_comma (fuel : Nat) (s : List Char) (h : s.length ≤ fuel) :
    pyReplaceAux [','] [] fuel s = s.filter (fun c => c != ',') := by
  induction fuel generalizing s with
  | zero =>
    cases s with
    | nil => simp [pyReplaceAux]
    | cons c rest => simp at h
  | succ f ih =>
    cases s with
    | nil => simp [pyReplaceAux]
    | cons c rest =>
      by_cases hc : c = ','
      · subst hc
        rw [pyReplaceAux, if_pos ⟨by simp, by simp [List.isPrefixOf]⟩]
        simpa using ih rest (by simp only [List.length_cons] at h; omega)
      · rw [pyReplaceAux, if_neg (by
          rintro ⟨-, hpref⟩
          simp [List.isPrefixOf] at hpref
          exact hc hpref.symm)]
        simp [hc, ih rest (by simp only [List.length_cons] at h; omega)]

theorem pyReplace_comma (s : List Char) : pyReplace [','] [] s = s.filter (fun c => c != ',') :=
  pyReplaceAux_comma s.length s le_rfl

theorem venmoTail_two (a b : Char) (r : List Char) (hb : (b == '$') = false) :
    venmoTail (a :: b :: r) = false := by
  simp [venmoTail, hb]

theorem nonNL_of_not_newline (m : List Char) (h : '\n' ∉ m) : ∀ c ∈ m, nonNL c = true := by
  intro c hc
  have : c ≠ '\n' := fun he => h (he ▸ hc)
  simp [nonNL, this]

theorem ddAmtAt_ne (c : Char) (s : List Char) (h : c ≠ '$') : ddAmtAt (c :: s) = none := by
  rw [ddAmtAt.eq_def]
  split
  · next heq => exact absurd (List.cons.inj heq).1 h
  · rfl

theorem ddAcctAt_ne (c : Char) (s : List Char) (h : c ≠ '(') : ddAcctAt (c :: s) = none := by
  rw [ddAcctAt.eq_def]
  split
  · next heq => exact absurd (List.cons.inj heq).1 h
  · rfl

theorem venmoTxn_youPaid (m a1 z : List Char) (d1 d2 : Char) (r : PyVal)
    (hm : m ≠ []) (hm₁ : '$' ∉ m) (hm₂ : '\n' ∉ m)
    (ha : ∀ c ∈ a1, c.isDigit = true) (ha0 : a1 ≠ [])
    (h1 : d1.isDigit = true) (h2 : d2.isDigit = true) (hz : '$' ∉ z) :
    venmoTxn (("You paid ").data ++ m ++ ' ' :: '$' :: (a1 ++ '.' :: d1 :: d2 :: z)) r
      = some ⟨m, ("Expense").data, a1 ++ '.' :: d1 :: d2 :: z, [], [],
          ("Venmo").data, r⟩ := by
  set amt := a1 ++ '.' :: d1 :: d2 :: z with hamt
  have hamtD : '$' ∉ amt := by
    intro hmem
    rw [hamt] at hmem
    rcases List.mem_append.mp hmem with h | h
    · exact absurd (ha _ h) (by decide)
    · simp only [List.mem_cons] at h
      rcases h with h | h | h | h
      · exact absurd h (by decide)
      · rw [← h] at h1; exact absurd h1 (by decide)
      · rw [← h] at h2; exact absurd h2 (by decide)
      · exact hz h
  have hpre : '$' ∉ (("You paid ").data ++ m) ++ [' '] := by
    intro hmem
    rcases List.mem_append.mp hmem with h | h
    · rcases List.mem_append.mp h with h | h
      · simp at h
      · exact hm₁ h
    · simp at h
  have hre : (("You paid ").data ++ m) ++ (' ' :: '$' :: amt)
      = ((("You paid ").data ++ m) ++ [' ']) ++ '$' :: amt := by simp
  have hsplit : pySplitChar '$' ((("You paid ").data ++ m) ++ (' ' :: '$' :: amt))
      = (((("You paid ").data ++ m) ++ [' ']) :: [amt]) := by
    rw [hre, pySplitChar_append '$' _ amt hpre, pySplitChar_not_mem '$' amt hamtD]
  have hsubj2 : (("You paid ").data ++ m) ++ (' ' :: '$' :: amt)
      = ("You paid").data ++ ((' ' :: m) ++ (' ' :: '$' :: amt)) := by
    have h : ("You paid ").data = ("You paid").data ++ [' '] := rfl
    rw [h]
    simp
  have htrig : containsSub ("You paid").data
      ((("You paid ").data ++ m) ++ (' ' :: '$' :: amt)) = true := by
    rw [hsubj2]
    have h := containsSub_of_prefix ("You paid").data
      (("You paid").data ++ ((' ' :: m) ++ (' ' :: '$' :: amt)))
      (isPrefixOf_append_self _ _) []
    simpa using h
  have htail : venmoTail (' ' :: '$' :: amt) = true := by
    rw [hamt]
    have hnum := numDotTwo_eq Char.isDigit a1 d1 d2 z ha ha0 (by decide) h1 h2
    simp [venmoTail, hnum]
  have hfail : ∀ k, 0 < k → k < m.length →
      venmoTail (m.drop k ++ (' ' :: '$' :: amt)) = false := by
    intro k hk0 hklt
    have hd : m.drop k ≠ [] := by
      intro hnil
      have hlen := List.length_drop k m
      rw [hnil] at hlen
      simp at hlen
      omega
    obtain ⟨c1, d, hdk⟩ := List.exists_cons_of_ne_nil hd
    cases d with
    | nil =>
      rw [hdk]
      exact venmoTail_two c1 ' ' _ (by decide)
    | cons c2 d2 =>
      have hc2 : c2 ∈ m := List.mem_of_mem_drop (l := m) (n := k) (by rw [hdk]; simp)
      have hc2' : (c2 == '$') = false := by
        have h : c2 ≠ '$' := fun he => hm₁ (he ▸ hc2)
        simp [h]
      rw [hdk]
      exact venmoTail_two c1 c2 _ hc2'
  have hlazy : lazyGroupPlus nonNL venmoTail (m ++ (' ' :: '$' :: amt)) = some m :=
    lazyGroupPlus_exact nonNL venmoTail m (' ' :: '$' :: amt) hm
      (nonNL_of_not_newline m hm₂) htail hfail
  have hsearch : reSearch youPaidAt ((("You paid ").data ++ m) ++ (' ' :: '$' :: amt)) = some m := by
    apply reSearch_here
    unfold youPaidAt
    rw [List.append_assoc, dropLit_append]
    exact hlazy
  show venmoTxn ((("You paid ").data ++ m) ++ (' ' :: '$' :: amt)) r = _
  unfold venmoTxn
  rw [hsplit]
  simp only [List.get?]
  rw [if_pos htrig, hsearch]

theorem venmoTxn_paidYou (m amt : List Char) (r : PyVal)
    (hYP : containsSub ("You paid").data (m ++ (" paid you $").data ++ amt) = false)
    (hm : '$' ∉ m) (hamt : '$' ∉ amt)
    (hocc : ∀ i, i < m.length →
      (" paid you").data.isPrefixOf ((m ++ (" paid you $").data ++ amt).drop i) = false) :
    venmoTxn (m ++ (" paid you $").data ++ amt) r
      = some ⟨m, ("Expense").data, '-' :: amt, [], [], ("Venmo").data, r⟩ := by
  have hre : (m ++ (" paid you $").data) ++ amt = (m ++ (" paid you ").data) ++ '$' :: amt := by
    have h : (" paid you $").data = (" paid you ").data ++ ['$'] := rfl
    rw [h]
    simp
  have hpre : '$' ∉ m ++ (" paid you ").data := by
    intro hmem
    rcases List.mem_append.mp hmem with h | h
    · exact hm h
    · simp at h
  have hsplit : pySplitChar '$' ((m ++ (" paid you $").data) ++ amt)
      = ((m ++ (" paid you ").data) :: [amt]) := by
    rw [hre, pySplitChar_append '$' _ amt hpre, pySplitChar_not_mem '$' amt hamt]
  have hre2 : (m ++ (" paid you $").data) ++ amt
      = m ++ (" paid you").data ++ ([' ', '$'] ++ amt) := by
    have h : (" paid you $").data = (" paid you").data ++ [' ', '$'] := rfl
    rw [h]
    simp
  have hhead : (pySplitSub (" paid you").data ((m ++ (" paid you $").data) ++ amt)).headD [] = m := by
    rw [hre2]
    apply pySplitSub_first (" paid you").data m ([' ', '$'] ++ amt) (by simp)
    intro i hi
    have h := hocc i hi
    rw [hre2] at h
    exact h
  show venmoTxn ((m ++ (" paid you $").data) ++ amt) r = _
  unfold venmoTxn
  rw [hsplit]
  simp only [List.get?]
  rw [if_neg (by rw [hYP]; exact Bool.false_ne_true), hhead]

theorem chaseDDTxn_eq (cfg : Config) (p a1 q rtail : List Char)
    (d1 d2 e1 e2 e3 e4 : Char) (r : PyVal)
    (hp : '$' ∉ p) (hpp : '(' ∉ p) (hq : '(' ∉ q)
    (ha : ∀ c ∈ a1, pyDigitComma c = true) (ha0 : a1 ≠ [])
    (h1 : d1.isDigit = true) (h2 : d2.isDigit = true)
    (he1 : e1.isDigit = true) (he2 : e2.isDigit = true)
    (he3 : e3.isDigit = true) (he4 : e4.isDigit = true) :
    chaseDDTxn cfg
      (p ++ '$' :: (a1 ++ '.' :: d1 :: d2 ::
        (q ++ '(' :: '.' :: '.' :: '.' :: e1 :: e2 :: e3 :: e4 :: ')' :: rtail))) r
      = some ⟨cfg.employer, ("Income").data,
          (a1 ++ '.' :: d1 :: d2 :: []).filter (fun c => c != ','),
          ("Paychecks").data, [], ("Chase ").data ++ e1 :: e2 :: e3 :: e4 :: [], r⟩ := by
  have hnum := numDotTwo_eq pyDigitComma a1 d1 d2
    (q ++ '(' :: '.' :: '.' :: '.' :: e1 :: e2 :: e3 :: e4 :: ')' :: rtail)
    ha ha0 (by decide) h1 h2
  have hamt : reSearch ddAmtAt
      (p ++ '$' :: (a1 ++ '.' :: d1 :: d2 ::
        (q ++ '(' :: '.' :: '.' :: '.' :: e1 :: e2 :: e3 :: e4 :: ')' :: rtail)))
      = some (a1 ++ '.' :: d1 :: d2 :: []) := by
    rw [reSearch_skip ddAmtAt '$' ddAmtAt_ne p _ hp]
    apply reSearch_here
    show (numDotTwo pyDigitComma (a1 ++ '.' :: d1 :: d2 ::
      (q ++ '(' :: '.' :: '.' :: '.' :: e1 :: e2 :: e3 :: e4 :: ')' :: rtail))).map (·.1)
      = some (a1 ++ '.' :: d1 :: d2 :: [])
    rw [hnum]
    rfl
  have hdigne : ∀ c : Char, c.isDigit = true → c ≠ '(' := by
    intro c hc he
    rw [he] at hc
    exact absurd hc (by decide)
  have haccpre : '(' ∉ p ++ '$' :: (a1 ++ '.' :: d1 :: d2 :: q) := by
    intro hmem
    rcases List.mem_append.mp hmem with h | h
    · exact hpp h
    · simp only [List.mem_cons] at h
      rcases h with h | h
      · exact absurd h.symm (by decide)
      · rcases List.mem_append.mp h with h | h
        · exact absurd (ha _ h) (by decide)
        · simp only [List.mem_cons] at h
          rcases h with h | h | h | h
          · exact absurd h.symm (by decide)
          · exact hdigne d1 h1 h.symm
          · exact hdigne d2 h2 h.symm
          · exact hq h
  have hshape2 : p ++ '$' :: (a1 ++ '.' :: d1 :: d2 ::
      (q ++ '(' :: '.' :: '.' :: '.' :: e1 :: e2 :: e3 :: e4 :: ')' :: rtail))
      = (p ++ '$' :: (a1 ++ '.' :: d1 :: d2 :: q)) ++
        ('(' :: '.' :: '.' :: '.' :: e1 :: e2 :: e3 :: e4 :: ')' :: rtail) := by
    simp
  have hed : exactDigits 4 (e1 :: e2 :: e3 :: e4 :: ')' :: rtail)
      = some (e1 :: e2 :: e3 :: e4 :: [], ')' :: rtail) := by
    have h := exactDigits_append (e1 :: e2 :: e3 :: e4 :: []) (')' :: rtail) (by
      intro c hc
      simp only [List.mem_cons] at hc
      rcases hc with h | h | h | h | h
      · rw [h]; exact he1
      · rw [h]; exact he2
      · rw [h]; exact he3
      · rw [h]; exact he4
      · simp at h)
    simpa using h
  have hacct : reSearch ddAcctAt
      (p ++ '$' :: (a1 ++ '.' :: d1 :: d2 ::
        (q ++ '(' :: '.' :: '.' :: '.' :: e1 :: e2 :: e3 :: e4 :: ')' :: rtail)))
      = some ('.' :: '.' :: '.' :: e1 :: e2 :: e3 :: e4 :: []) := by
    rw [hshape2, reSearch_skip ddAcctAt '(' ddAcctAt_ne _ _ haccpre]
    apply reSearch_here
    show (match exactDigits 4 (e1 :: e2 :: e3 :: e4 :: ')' :: rtail) with
          | some (ds, r2) =>
            match r2 with
            | ')' :: _ => some ('.' :: '.' :: '.' :: ds)
            | _ => none
          | none => none)
        = some ('.' :: '.' :: '.' :: e1 :: e2 :: e3 :: e4 :: [])
    rw [hed]
    rfl
  unfold chaseDDTxn
  rw [hamt, hacct]
  simp only [pyReplaceAll, pyReplace_comma, pyLastN]
  norm_num

theorem pyFind_append (pre rest : List Char) (c : Char) (h : c ∉ pre) :
    pyFind (pre ++ c :: rest) c = pre.length := by
  induction pre with
  | nil => simp [pyFind]
  | cons p pre ih =>
    have hp : ¬ (p = c) := fun he => h (by simp [he])
    have hr := ih (fun hm => h (by simp [hm]))
    rw [List.cons_append, pyFind]
    simp only [hp, if_false, hr]
    rw [if_neg (show ¬ ((pre.length : Int) < 0) by omega)]
    simp only [List.length_cons]
    push_cast
    ring

theorem pyFind_not_mem (s : List Char) (c : Char) (h : c ∉ s) : pyFind s c = -1 := by
  induction s with
  | nil => rfl
  | cons p s ih =>
    have hp : ¬ (p = c) := fun he => h (by simp [he])
    have hr := ih (fun hm => h (by simp [hm]))
    rw [pyFind]
    simp [hp, hr]

theorem pySlice_extract (a mid b : List Char) :
    pySlice (a ++ mid ++ b) (a.length : Int) ((a.length : Int) + (mid.length : Int)) = mid := by
  simp only [pySlice]
  rw [if_neg (show ¬ ((a.length : Int) < 0) by omega),
      if_neg (show ¬ ((a.length : Int) + (mid.length : Int) < 0) by omega)]
  rw [min_eq_left (show (a.length : Int) ≤ ((a ++ mid ++ b).length : Int) by
        push_cast [List.length_append]; omega),
      min_eq_left (show (a.length : Int) + (mid.length : Int) ≤ ((a ++ mid ++ b).length : Int) by
        push_cast [List.length_append]; omega)]
  have h1 : ((a.length : Int)).toNat = a.length := by omega
  have h2 : ((a.length : Int) + (mid.length : Int) - (a.length : Int)).toNat = mid.length := by
    omega
  rw [h1, h2, List.append_assoc, List.drop_left, List.take_left]

theorem pySlice_zero_neg_one (s : List Char) : pySlice s 0 (-1) = s.dropLast := by
  cases s with
  | nil => rfl
  | cons c rest =>
    simp only [pySlice]
    rw [if_neg (show ¬ ((0 : Int) < 0) by omega), if_pos (show ((-1 : Int)) < 0 by omega)]
    rw [min_eq_left (show (0 : Int) ≤ (((c :: rest).length : Nat) : Int) by positivity)]
    rw [max_eq_left (show (0 : Int) ≤ -1 + (((c :: rest).length : Nat) : Int) by
      simp only [List.length_cons]; push_cast; omega)]
    have h2 : ((-1 : Int) + (((c :: rest).length : Nat) : Int) - 0).toNat
        = (c :: rest).length - 1 := by
      simp only [List.length_cons]
      push_cast
      omega
    rw [h2, show ((0 : Int)).toNat = 0 by omega, List.drop_zero, List.dropLast_eq_take]

/-- Claim C10: `extract_email` returns the substring strictly between the
first `<` and the first `>` of the header; when the header contains
neither `<` nor `>`, both `find` calls return `-1` and the slice
`s[0:-1]` drops the final character, so a bare-address header is never
mapped to itself (and hence never equals the configured sender address it
spells). -/
theorem claim_C10 :
    (∀ (s pre mid post : List Char),
      s = pre ++ '<' :: mid ++ '>' :: post →
      '<' ∉ pre → '>' ∉ pre → '>' ∉ mid →
      extract_email s = mid)
    ∧ (∀ s : List Char, '<' ∉ s → '>' ∉ s → extract_email s = s.dropLast)
    ∧ (∀ s : List Char, s ≠ [] → '<' ∉ s → '>' ∉ s → extract_email s ≠ s) := by
  have part2 : ∀ s : List Char, '<' ∉ s → '>' ∉ s → extract_email s = s.dropLast := by
    intro s h1 h2
    unfold extract_email
    rw [pyFind_not_mem s '<' h1, pyFind_not_mem s '>' h2]
    exact pySlice_zero_neg_one s
  refine ⟨?_, part2, ?_⟩
  · intro s pre mid post hs hpre1 hpre2 hmid
    subst hs
    have hfind1 : pyFind (pre ++ '<' :: (mid ++ '>' :: post)) '<' = pre.length :=
      pyFind_append pre (mid ++ '>' :: post) '<' hpre1
    have hshape : pre ++ '<' :: mid ++ '>' :: post
        = (pre ++ '<' :: mid) ++ '>' :: post := by simp
    have hfind2 : pyFind (pre ++ '<' :: mid ++ '>' :: post) '>' = pre.length + 1 + mid.length := by
      rw [hshape, pyFind_append (pre ++ '<' :: mid) post '>' (by
        intro hm
        rcases List.mem_append.mp hm with h | h
        · exact hpre2 h
        · simp only [List.mem_cons] at h
          rcases h with h | h
          · exact absurd h (by decide)
          · exact hmid h)]
      simp [List.length_append]
      ring
    unfold extract_email
    rw [show pre ++ '<' :: mid ++ '>' :: post = pre ++ '<' :: (mid ++ '>' :: post) by simp] at hfind2 ⊢
    rw [hfind1, hfind2]
    have hre : pre ++ '<' :: (mid ++ '>' :: post)
        = (pre ++ ['<']) ++ mid ++ ('>' :: post) := by simp
    rw [hre]
    have harg1 : (pre.length : Int) + 1 = ((pre ++ ['<']).length : Int) := by
      simp [List.length_append]
    have harg2 : ((pre.length : Int) + 1 + (mid.length : Int))
        = ((pre ++ ['<']).length : Int) + (mid.length : Int) := by
      simp [List.length_append]
    rw [show (pre.length : Int) + 1 + (mid.length : Int)
        = ((pre.length : Int) + 1) + (mid.length : Int) by ring] at *
    rw [harg1]
    exact pySlice_extract (pre ++ ['<']) mid ('>' :: post)
  · intro s hne h1 h2 heq
    rw [part2 s h1 h2] at heq
    have hlen := congrArg List.length heq
    rw [List.length_dropLast] at hlen
    have : 0 < s.length := List.length_pos.mpr hne
    omega

/-- Claim C2: when the message timestamp (milliseconds, i.e.
`ts * 1000` microseconds) is at or before the watermark instant,
`parse_transaction_details` returns the empty result regardless of
subject, sender or body; the in-scope test is a strict greater-than, so
equality is out of scope. -/
theorem claim_C2 (cfg : Config) (subject from_email : List Char) (ts : Int)
    (content : List Char) (wm : Int) (h : ts * 1000 ≤ wm) :
    utils.parse_transaction_details cfg subject from_email ts content wm
      = Except.ok none := by
  unfold utils.parse_transaction_details
  rw [if_neg]
  intro hsc
  have := of_decide_eq_true hsc
  omega

/-- Witness for claim C2 at a timestamp exactly equal to the watermark. -/
theorem claim_C2_witness :
    utils.parse_transaction_details ccfg ("You paid Alice $12.34").data ccfg.venmo_email
      1700000000000 [] 1700000000000000 = Except.ok none :=
  claim_C2 ccfg ("You paid Alice $12.34").data ccfg.venmo_email 1700000000000 []
    1700000000000000 (by omega)

/-- Claim C1 (code bug): a triggered branch whose body lacks the expected
pattern makes the exception escape `parse_transaction_details` instead of
yielding the empty result.  In `utils.py` the `except` catches the
pattern failure but the result-dict construction then reads locals the
failed branch never bound (`UnboundLocalError`); in `gmail_parser.py`
there is no `try` at all.  Shown here on an American Express email whose
body has fewer than 10 lines and on a Chase `'You sent'` email whose body
lacks the `Recipient`/`Amount` labels. -/
theorem claim_C1 :
    utils.parse_transaction_details ccfg ("Large Purchase Approved").data ccfg.amex_email
      1700000000000 ("short").data 0 = Except.error ()
    ∧ utils.parse_transaction_details ccfg ("You sent $20.00").data ccfg.chase_email
      1700000000000 ("no labels here").data 0 = Except.error ()
    ∧ gmailParser.parse_transaction_details ccfg ("Large Purchase Approved").data ccfg.amex_email
      1700000000000 ("short").data 0 = Except.error () :=
  ⟨rfl, rfl, rfl⟩

/-- Claim C5: `apply_rules_engine` is a left-to-right fold over the rules in
list (creation) order, replacing all occurrences of a matching pattern and
feeding the result to the next rule; it is order-sensitive (rules
`a`→`b`, `b`→`c` on `"ab"` give `"cc"` one way and `"bc"` the other), and
a matched pattern has all its occurrences replaced. -/
theorem claim_C5 :
    (∀ (merchant : List Char) (rules : List Rule),
      apply_rules_engine merchant rules
        = rules.foldl
            (fun cur r =>
              if containsSub r.pattern cur then pyReplaceAll cur r.pattern r.replacement
              else cur)
            merchant)
    ∧ apply_rules_engine ('a' :: 'b' :: [])
        (⟨['a'], ['b']⟩ :: ⟨['b'], ['c']⟩ :: [])
      ≠ apply_rules_engine ('a' :: 'b' :: [])
        (⟨['b'], ['c']⟩ :: ⟨['a'], ['b']⟩ :: [])
    ∧ apply_rules_engine ("aXaYa").data (⟨['a'], ['b']⟩ :: [])
      = ("bXbYb").data := by
  refine ⟨?_, by decide, by decide⟩
  intro merchant rules
  induction rules generalizing merchant with
  | nil => rfl
  | cons r rest ih => simp [apply_rules_engine, List.foldl, ih]

/-- Claim C7 (code bug): the add-rule route inserts into a table named
`rules`, which the schema created by `init_db` does not contain (it only
creates `transaction_rules`), so sqlite raises `OperationalError`, the
route's `except` turns it into an HTTP 400, and no rule creation through
this route ever succeeds (and no backfill ever runs from it). -/
theorem claim_C7 :
    ("rules").data ∉ initTables
    ∧ ∀ (db : SQLiteDB) (mon mrn : List Char), ("rules").data ∉ db.tables →
        add_transaction_rule db mon mrn = Except.error ("no such table: rules").data := by
  refine ⟨by decide, ?_⟩
  intro db mon mrn h
  unfold add_transaction_rule
  rw [if_neg h]

/-- Witness for claim C7 on the freshly initialised schema. -/
theorem claim_C7_witness :
    add_transaction_rule ⟨initTables, [], []⟩ ("STARBUCKS #123").data ("Starbucks").data
      = Except.error ("no such table: rules").data :=
  claim_C7.2 ⟨initTables, [], []⟩ ("STARBUCKS #123").data ("Starbucks").data (by decide)

/-- Claim C9 (amended): `mark_message_as_processed` raises only when the
message id is absent (`None`); any present string id — including the
empty string — is accepted and a `{processed: true, timestamp: t}` record
is written and subsequently visible to `is_message_processed`. -/
theorem claim_C9 (coll : FsCollection) (message_id message_timestamp : List Char) :
    (mark_message_as_processed coll (some message_id) message_timestamp
        = Except.ok (fsSet coll message_id ⟨true, message_timestamp⟩)
      ∧ fsGet (fsSet coll message_id ⟨true, message_timestamp⟩) message_id
        = some ⟨true, message_timestamp⟩
      ∧ is_message_processed (fsSet coll message_id ⟨true, message_timestamp⟩) message_id
        = true)
    ∧ mark_message_as_processed coll none message_timestamp
        = Except.error ("Message ID cannot be none.").data := by
  refine ⟨⟨rfl, ?_, ?_⟩, rfl⟩
  · simp [fsGet, fsSet, List.find?]
  · simp [is_message_processed, fsGet, fsSet, List.find?]

/-- Counterexample for claim C9 as stated: marking with the empty-string id
does not raise; it writes a processed record under the empty key. -/
theorem claim_C9_counterexample :
    mark_message_as_processed [] (some []) ("1700000000000").data
      = Except.ok [(([] : List Char), ⟨true, ("1700000000000").data⟩)] := rfl

theorem backfillLoop_snd (rules : List Rule) (txns : List TxnRow) :
    (backfillLoop rules txns).2
      = txns.map (fun t => ⟨t.transaction_id, apply_rules_engine t.merchant rules⟩) := by
  induction txns with
  | nil => rfl
  | cons t rest ih =>
    rcases t with ⟨tid, tm⟩
    by_cases h : apply_rules_engine tm rules = tm
    · simp [backfillLoop, h, ih]
    · simp [backfillLoop, h, ih]

theorem backfillLoop_fst_zero (rules : List Rule) (txns : List TxnRow)
    (h : ∀ t ∈ txns, apply_rules_engine t.merchant rules = t.merchant) :
    (backfillLoop rules txns).1 = 0 := by
  induction txns with
  | nil => rfl
  | cons t rest ih =>
    have ht := h t (by simp)
    simp [backfillLoop, ht, ih (fun x hx => h x (by simp [hx]))]

/-- Claim C6 (amended): a second `backfill_transaction_rules` run rewrites
zero rows provided the rule application is idempotent on each stored
merchant (for instance when no replacement reintroduces a pattern); the
claim as stated fails for rule sets like `a → aa` (see the
counterexample). -/
theorem claim_C6 (db : SQLiteDB) (n : Nat) (db' : SQLiteDB)
    (htbl : ("rules").data ∈ db.tables)
    (hid : ∀ t ∈ db.transactions,
      apply_rules_engine (apply_rules_engine t.merchant db.rules_tbl) db.rules_tbl
        = apply_rules_engine t.merchant db.rules_tbl)
    (hrun : backfill_transaction_rules db = Except.ok (n, db')) :
    backfill_transaction_rules db' = Except.ok (0, db') := by
  unfold backfill_transaction_rules at hrun ⊢
  rw [if_pos htbl] at hrun
  have hprod := Except.ok.inj hrun
  have hdb' : db' = { db with transactions := (backfillLoop db.rules_tbl db.transactions).2 } :=
    (congrArg Prod.snd hprod).symm
  subst hdb'
  rw [if_pos htbl]
  have hmap := backfillLoop_snd db.rules_tbl db.transactions
  have hfix : ∀ t ∈ (backfillLoop db.rules_tbl db.transactions).2,
      apply_rules_engine t.merchant db.rules_tbl = t.merchant := by
    intro t ht
    rw [hmap] at ht
    obtain ⟨t0, ht0, rfl⟩ := List.mem_map.mp ht
    exact hid t0 ht0
  have h1 := backfillLoop_fst_zero db.rules_tbl _ hfix
  have h2 : (backfillLoop db.rules_tbl (backfillLoop db.rules_tbl db.transactions).2).2
      = (backfillLoop db.rules_tbl db.transactions).2 := by
    rw [backfillLoop_snd]
    have hcg : ∀ x ∈ (backfillLoop db.rules_tbl db.transactions).2,
        (TxnRow.mk x.transaction_id (apply_rules_engine x.merchant db.rules_tbl)) = id x := by
      intro x hx
      rcases x with ⟨i, m⟩
      simp only [id_eq, TxnRow.mk.injEq, true_and]
      exact hfix ⟨i, m⟩ hx
    rw [List.map_congr_left hcg, List.map_id]
  show Except.ok ((backfillLoop db.rules_tbl (backfillLoop db.rules_tbl db.transactions).2).1,
      SQLiteDB.mk db.tables
        (backfillLoop db.rules_tbl (backfillLoop db.rules_tbl db.transactions).2).2
        db.rules_tbl)
    = Except.ok (0, SQLiteDB.mk db.tables
        (backfillLoop db.rules_tbl db.transactions).2 db.rules_tbl)
  rw [h1, h2]

/-- Counterexample for claim C6 as stated: with the single rule
`a → aa` and one stored merchant `a`, the first backfill rewrites the row
to `aa` and the second run rewrites it again (to `aaaa`), returning 1,
not 0. -/
theorem claim_C6_counterexample :
    backfill_transaction_rules
        ⟨initTables ++ [("rules").data], [⟨("t1").data, ['a']⟩], [⟨['a'], 'a' :: 'a' :: []⟩]⟩
      = Except.ok (1, ⟨initTables ++ [("rules").data],
          [⟨("t1").data, 'a' :: 'a' :: []⟩], [⟨['a'], 'a' :: 'a' :: []⟩]⟩)
    ∧ backfill_transaction_rules
        ⟨initTables ++ [("rules").data], [⟨("t1").data, 'a' :: 'a' :: []⟩],
          [⟨['a'], 'a' :: 'a' :: []⟩]⟩
      = Except.ok (1, ⟨initTables ++ [("rules").data],
          [⟨("t1").data, 'a' :: 'a' :: 'a' :: 'a' :: []⟩], [⟨['a'], 'a' :: 'a' :: []⟩]⟩)
    ∧ (1 : Nat) ≠ 0 := ⟨rfl, rfl, by decide⟩

/-- Witness for the amended claim C6 with the idempotent rule `a → b`. -/
theorem claim_C6_witness :
    backfill_transaction_rules
        ⟨initTables ++ [("rules").data], [⟨("t1").data, ['b']⟩], [⟨['a'], ['b']⟩]⟩
      = Except.ok (0, ⟨initTables ++ [("rules").data], [⟨("t1").data, ['b']⟩],
          [⟨['a'], ['b']⟩]⟩) :=
  claim_C6 ⟨initTables ++ [("rules").data], [⟨("t1").data, ['a']⟩], [⟨['a'], ['b']⟩]⟩ 1
    ⟨initTables ++ [("rules").data], [⟨("t1").data, ['b']⟩], [⟨['a'], ['b']⟩]⟩
    (by decide) (by decide) (by rfl)

/-- Claim C3: for an in-scope email from the configured Venmo sender, a
`You paid <merchant> $<amount>` subject yields that merchant and the text
after the first `$` as a positive amount, and a `<merchant> paid you
$<amount>` subject yields the text before ` paid you` as merchant and the
`$`-value with `-` prepended; both carry bucket `Expense` and account
`Venmo`.  Proved for the backend parser and the `database_writer` parser,
whose Venmo branches are line-identical. -/
theorem claim_C3 :
    (∀ (cfg : Config) (subject m a1 z : List Char) (d1 d2 : Char) (ts wm : Int)
        (content : List Char),
      subject = ("You paid ").data ++ m ++ ' ' :: '$' :: (a1 ++ '.' :: d1 :: d2 :: z) →
      ts * 1000 > wm →
      m ≠ [] → '$' ∉ m → '\n' ∉ m →
      (∀ c ∈ a1, c.isDigit = true) → a1 ≠ [] →
      d1.isDigit = true → d2.isDigit = true → '$' ∉ z →
      utils.parse_transaction_details cfg subject cfg.venmo_email ts content wm
          = Except.ok (some ⟨m, ("Expense").data, a1 ++ '.' :: d1 :: d2 :: z, [], [],
              ("Venmo").data, PyVal.str ("False").data⟩)
        ∧ databaseWriter.parse_transaction_details cfg subject cfg.venmo_email content
          = some ⟨m, ("Expense").data, a1 ++ '.' :: d1 :: d2 :: z, [], [],
              ("Venmo").data, PyVal.str ("False").data⟩)
    ∧ (∀ (cfg : Config) (subject m amt : List Char) (ts wm : Int) (content : List Char),
      subject = m ++ (" paid you $").data ++ amt →
      ts * 1000 > wm →
      containsSub ("You paid").data subject = false →
      '$' ∉ m → '$' ∉ amt →
      (∀ i, i < m.length → (" paid you").data.isPrefixOf (subject.drop i) = false) →
      utils.parse_transaction_details cfg subject cfg.venmo_email ts content wm
          = Except.ok (some ⟨m, ("Expense").data, '-' :: amt, [], [],
              ("Venmo").data, PyVal.str ("False").data⟩)
        ∧ databaseWriter.parse_transaction_details cfg subject cfg.venmo_email content
          = some ⟨m, ("Expense").data, '-' :: amt, [], [], ("Venmo").data,
              PyVal.str ("False").data⟩) := by
  constructor
  · intro cfg subject m a1 z d1 d2 ts wm content hs hscope hm hm1 hm2 ha ha0 hd1 hd2 hz
    subst hs
    have hvt := venmoTxn_youPaid m a1 z d1 d2 (PyVal.str ("False").data)
      hm hm1 hm2 ha ha0 hd1 hd2 hz
    have hYP : containsSub ("You paid").data
        (("You paid ").data ++ m ++ ' ' :: '$' :: (a1 ++ '.' :: d1 :: d2 :: z)) = true := by
      have hsubj2 : (("You paid ").data ++ m) ++ (' ' :: '$' :: (a1 ++ '.' :: d1 :: d2 :: z))
          = ("You paid").data ++ ((' ' :: m) ++ (' ' :: '$' :: (a1 ++ '.' :: d1 :: d2 :: z))) := by
        have h : ("You paid ").data = ("You paid").data ++ [' '] := rfl
        rw [h]
        simp
      rw [hsubj2]
      have h := containsSub_of_prefix ("You paid").data
        (("You paid").data ++ ((' ' :: m) ++ (' ' :: '$' :: (a1 ++ '.' :: d1 :: d2 :: z))))
        (isPrefixOf_append_self _ _) []
      simpa using h
    have htrig : (containsSub ("paid you").data
          (("You paid ").data ++ m ++ ' ' :: '$' :: (a1 ++ '.' :: d1 :: d2 :: z))
        || containsSub ("You paid").data
          (("You paid ").data ++ m ++ ' ' :: '$' :: (a1 ++ '.' :: d1 :: d2 :: z))) = true := by
      rw [hYP, Bool.or_true]
    constructor
    · unfold utils.parse_transaction_details
      rw [if_pos (show is_email_inscope ts wm = true from decide_eq_true hscope),
          if_pos rfl, if_pos htrig, hvt]
      rfl
    · unfold databaseWriter.parse_transaction_details
      rw [if_pos rfl, if_pos htrig, hvt]
  · intro cfg subject m amt ts wm content hs hscope hYP hm hamt hocc
    subst hs
    have hvt := venmoTxn_paidYou m amt (PyVal.str ("False").data) hYP hm hamt hocc
    have hPY : containsSub ("paid you").data (m ++ (" paid you $").data ++ amt) = true := by
      have hsubj2 : (m ++ (" paid you $").data) ++ amt
          = (m ++ [' ']) ++ (("paid you").data ++ (' ' :: '$' :: amt)) := by
        have h : (" paid you $").data = [' '] ++ ("paid you").data ++ (' ' :: '$' :: []) := rfl
        rw [h]
        simp
      rw [hsubj2]
      exact containsSub_of_prefix _ _ (isPrefixOf_append_self _ _) _
    have htrig : (containsSub ("paid you").data (m ++ (" paid you $").data ++ amt)
        || containsSub ("You paid").data (m ++ (" paid you $").data ++ amt)) = true := by
      rw [hPY, Bool.true_or]
    constructor
    · unfold utils.parse_transaction_details
      rw [if_pos (show is_email_inscope ts wm = true from decide_eq_true hscope),
          if_pos rfl, if_pos htrig, hvt]
      rfl
    · unfold databaseWriter.parse_transaction_details
      rw [if_pos rfl, if_pos htrig, hvt]

/-- Witness for claim C3 at the two subjects named in the claim. -/
theorem claim_C3_witness :
    (utils.parse_transaction_details ccfg ("You paid Alice $12.34").data ccfg.venmo_email
        1700000000000 [] 0
      = Except.ok (some ⟨("Alice").data, ("Expense").data, ("12.34").data, [], [],
          ("Venmo").data, PyVal.str ("False").data⟩))
    ∧ (utils.parse_transaction_details ccfg ("Bob paid you $5.00").data ccfg.venmo_email
        1700000000000 [] 0
      = Except.ok (some ⟨("Bob").data, ("Expense").data, ("-5.00").data, [], [],
          ("Venmo").data, PyVal.str ("False").data⟩)) := by
  constructor
  · exact (claim_C3.1 ccfg ("You paid Alice $12.34").data ("Alice").data ("12").data []
      '3' '4' 1700000000000 0 [] (by decide) (by omega) (by decide) (by decide) (by decide)
      (by decide) (by decide) (by decide) (by decide) (by decide)).1
  · exact (claim_C3.2 ccfg ("Bob paid you $5.00").data ("Bob").data ("5.00").data
      1700000000000 0 [] (by decide) (by omega) (by decide) (by decide) (by decide)
      (by decide)).1

/-- Claim C4 (amended): in the backend (`utils.py`) parser and the
`database_writer` parser, an in-scope Chase email whose subject contains
`direct deposit` and neither `You sent` nor `transaction with` yields
merchant = configured employer, bucket `Income`, category `Paychecks`,
amount = the subject's `$`-amount with commas stripped, and account =
`Chase ` + the last 4 digits of the `(...dddd)` subject pattern; the
`gmail_parser.py` variant has no direct-deposit branch (see the
counterexample). -/
theorem claim_C4 (cfg : Config) (subject p a1 q rtail : List Char)
    (d1 d2 e1 e2 e3 e4 : Char) (ts wm : Int) (content : List Char)
    (hs : subject = p ++ '$' :: (a1 ++ '.' :: d1 :: d2 ::
        (q ++ '(' :: '.' :: '.' :: '.' :: e1 :: e2 :: e3 :: e4 :: ')' :: rtail)))
    (hscope : ts * 1000 > wm)
    (hcv : cfg.chase_email ≠ cfg.venmo_email) (hca : cfg.chase_email ≠ cfg.amex_email)
    (hsent : containsSub ("You sent").data subject = false)
    (htw : containsSub ("transaction with").data subject = false)
    (hdd : containsSub ("direct deposit").data subject = true)
    (hp : '$' ∉ p) (hpp : '(' ∉ p) (hq : '(' ∉ q)
    (ha : ∀ c ∈ a1, pyDigitComma c = true) (ha0 : a1 ≠ [])
    (h1 : d1.isDigit = true) (h2 : d2.isDigit = true)
    (he1 : e1.isDigit = true) (he2 : e2.isDigit = true)
    (he3 : e3.isDigit = true) (he4 : e4.isDigit = true) :
    utils.parse_transaction_details cfg subject cfg.chase_email ts content wm
      = Except.ok (some ⟨cfg.employer, ("Income").data,
          (a1 ++ '.' :: d1 :: d2 :: []).filter (fun c => c != ','),
          ("Paychecks").data, [], ("Chase ").data ++ e1 :: e2 :: e3 :: e4 :: [],
          PyVal.str ("False").data⟩)
    ∧ databaseWriter.parse_transaction_details cfg subject cfg.chase_email content
      = some ⟨cfg.employer, ("Income").data,
          (a1 ++ '.' :: d1 :: d2 :: []).filter (fun c => c != ','),
          ("Paychecks").data, [], ("Chase ").data ++ e1 :: e2 :: e3 :: e4 :: [],
          PyVal.str ("False").data⟩ := by
  subst hs
  have hdt := chaseDDTxn_eq cfg p a1 q rtail d1 d2 e1 e2 e3 e4 (PyVal.str ("False").data)
    hp hpp hq ha ha0 h1 h2 he1 he2 he3 he4
  constructor
  · unfold utils.parse_transaction_details
    rw [if_pos (show is_email_inscope ts wm = true from decide_eq_true hscope),
        if_neg hcv, if_neg hca, if_pos rfl,
        if_neg (by rw [hsent]; exact Bool.false_ne_true),
        if_neg (by rw [htw]; exact Bool.false_ne_true),
        if_pos hdd, hdt]
    rfl
  · unfold databaseWriter.parse_transaction_details
    rw [if_neg hcv, if_neg hca, if_pos rfl,
        if_neg (by rw [hsent]; exact Bool.false_ne_true),
        if_neg (by rw [htw]; exact Bool.false_ne_true),
        if_pos hdd, hdt]

/-- Counterexample for claim C4 as stated: the same well-formed in-scope
direct-deposit email produces a transaction through `utils.py` but none
through `gmail_parser.py`, whose Chase chain lacks the branch. -/
theorem claim_C4_counterexample :
    gmailParser.parse_transaction_details ccfg
        ("Your direct deposit of $1,234.56 is in account (...6789) now").data
        ccfg.chase_email 1700000000000 [] 0
      = Except.ok none
    ∧ utils.parse_transaction_details ccfg
        ("Your direct deposit of $1,234.56 is in account (...6789) now").data
        ccfg.chase_email 1700000000000 [] 0
      = Except.ok (some ⟨("Acme Corp").data, ("Income").data, ("1234.56").data,
          ("Paychecks").data, [], ("Chase 6789").data, PyVal.str ("False").data⟩) :=
  ⟨rfl, rfl⟩

/-- Witness for the amended claim C4 at a concrete direct-deposit subject. -/
theorem claim_C4_witness :
    utils.parse_transaction_details ccfg
        ("Your direct deposit of $1,234.56 is in account (...6789) now").data
        ccfg.chase_email 1700000000000 [] 0
      = Except.ok (some ⟨("Acme Corp").data, ("Income").data, ("1234.56").data,
          ("Paychecks").data, [], ("Chase 6789").data, PyVal.str ("False").data⟩)
    ∧ databaseWriter.parse_transaction_details ccfg
        ("Your direct deposit of $1,234.56 is in account (...6789) now").data
        ccfg.chase_email []
      = some ⟨("Acme Corp").data, ("Income").data, ("1234.56").data,
          ("Paychecks").data, [], ("Chase 6789").data, PyVal.str ("False").data⟩ :=
  claim_C4 ccfg ("Your direct deposit of $1,234.56 is in account (...6789) now").data
    ("Your direct deposit of ").data ("1,234").data (" is in account ").data (" now").data
    '5' '6' '6' '7' '8' '9' 1700000000000 0 []
    (by decide) (by omega) (by decide) (by decide) (by decide) (by decide) (by decide)
    (by decide) (by decide) (by decide) (by decide) (by decide) (by decide) (by decide)
    (by decide) (by decide) (by decide) (by decide)

theorem toExcept_ok (o : Option Transaction) (t : Transaction)
    (h : toExcept o = Except.ok (some t)) : o = some t := by
  cases o with
  | some t' =>
    simp only [toExcept, Except.ok.injEq] at h
    rw [h]
  | none => simp [toExcept] at h

theorem venmoTxn_recurring (s : List Char) (r : PyVal) (t : Transaction)
    (h : venmoTxn s r = some t) : t.is_recurring = r := by
  unfold venmoTxn at h
  split at h
  · simp at h
  · split at h
    · split at h
      · injection h with h2
        rw [← h2]
      · simp at h
    · injection h with h2
      rw [← h2]

theorem amexTxn_recurring (s : List Char) (r : PyVal) (t : Transaction)
    (h : amexTxn s r = some t) : t.is_recurring = r := by
  unfold amexTxn at h
  split at h
  · simp at h
  · split at h
    · simp at h
    · split at h
      · simp at h
      · injection h with h2
        rw [← h2]

theorem chaseSentTxn_recurring (s : List Char) (r : PyVal) (t : Transaction)
    (h : chaseSentTxn s r = some t) : t.is_recurring = r := by
  unfold chaseSentTxn at h
  split at h
  · simp at h
  · split at h
    · simp at h
    · split at h
      · simp at h
      · injection h with h2
        rw [← h2]

theorem chaseCardTxn_recurring (s1 s2 : List Char) (r : PyVal) (t : Transaction)
    (h : chaseCardTxn s1 s2 r = some t) : t.is_recurring = r := by
  unfold chaseCardTxn at h
  split at h
  · simp at h
  · split at h
    · simp at h
    · split at h
      · simp at h
      · injection h with h2
        rw [← h2]

theorem chaseDDTxn_recurring (cfg : Config) (s : List Char) (r : PyVal) (t : Transaction)
    (h : chaseDDTxn cfg s r = some t) : t.is_recurring = r := by
  unfold chaseDDTxn at h
  split at h
  · simp at h
  · split at h
    · simp at h
    · injection h with h2
      rw [← h2]

theorem capOneTxn_recurring (s : List Char) (r : PyVal) (t : Transaction)
    (h : capOneTxn s r = some t) : t.is_recurring = r := by
  unfold capOneTxn at h
  split at h
  · simp at h
  · split at h
    · simp at h
    · split at h
      · simp at h
      · injection h with h2
        rw [← h2]

theorem wfTxn_recurring (s : List Char) (r : PyVal) (t : Transaction)
    (h : wfTxn s r = some t) : t.is_recurring = r := by
  unfold wfTxn at h
  split at h
  · simp at h
  · split at h
    · simp at h
    · split at h
      · simp at h
      · injection h with h2
        rw [← h2]

/-- Claim C8 (amended): every transaction the backend (`utils.py`) parser
or the `database_writer` parser produces has `is_recurring` equal to the
text string `'False'`; the `gmail_parser.py` variant instead stores the
Python boolean `False` (see the counterexample).  No parser ever stores a
true value. -/
theorem claim_C8 (cfg : Config) (subject from_email : List Char) (ts : Int)
    (content : List Char) (wm : Int) (t : Transaction) :
    (utils.parse_transaction_details cfg subject from_email ts content wm
        = Except.ok (some t) → t.is_recurring = PyVal.str ("False").data)
    ∧ (databaseWriter.parse_transaction_details cfg subject from_email content
        = some t → t.is_recurring = PyVal.str ("False").data)
    ∧ (gmailParser.parse_transaction_details cfg subject from_email ts content wm
        = Except.ok (some t) → t.is_recurring = PyVal.bool false) := by
  refine ⟨?_, ?_, ?_⟩
  · intro h
    unfold utils.parse_transaction_details at h
    split at h
    · split at h
      · split at h
        · exact venmoTxn_recurring _ _ _ (toExcept_ok _ _ h)
        · simp at h
      · split at h
        · split at h
          · exact amexTxn_recurring _ _ _ (toExcept_ok _ _ h)
          · simp at h
        · split at h
          · split at h
            · exact chaseSentTxn_recurring _ _ _ (toExcept_ok _ _ h)
            · split at h
              · exact chaseCardTxn_recurring _ _ _ _ (toExcept_ok _ _ h)
              · split at h
                · exact chaseDDTxn_recurring _ _ _ _ (toExcept_ok _ _ h)
                · simp at h
          · split at h
            · split at h
              · exact capOneTxn_recurring _ _ _ (toExcept_ok _ _ h)
              · simp at h
            · split at h
              · split at h
                · exact wfTxn_recurring _ _ _ (toExcept_ok _ _ h)
                · simp at h
              · simp at h
    · simp at h
  · intro h
    unfold databaseWriter.parse_transaction_details at h
    split at h
    · split at h
      · exact venmoTxn_recurring _ _ _ h
      · simp at h
    · split at h
      · split at h
        · exact amexTxn_recurring _ _ _ h
        · simp at h
      · split at h
        · split at h
          · exact chaseSentTxn_recurring _ _ _ h
          · split at h
            · exact chaseCardTxn_recurring _ _ _ _ h
            · split at h
              · exact chaseDDTxn_recurring _ _ _ _ h
              · simp at h
        · split at h
          · split at h
            · exact capOneTxn_recurring _ _ _ h
            · simp at h
          · split at h
            · split at h
              · exact wfTxn_recurring _ _ _ h
              · simp at h
            · simp at h
  · intro h
    unfold gmailParser.parse_transaction_details at h
    split at h
    · split at h
      · split at h
        · exact venmoTxn_recurring _ _ _ (toExcept_ok _ _ h)
        · simp at h
      · split at h
        · split at h
          · exact amexTxn_recurring _ _ _ (toExcept_ok _ _ h)
          · simp at h
        · split at h
          · split at h
            · exact chaseSentTxn_recurring _ _ _ (toExcept_ok _ _ h)
            · split at h
              · exact chaseCardTxn_recurring _ _ _ _ (toExcept_ok _ _ h)
              · simp at h
          · split at h
            · split at h
              · exact capOneTxn_recurring _ _ _ (toExcept_ok _ _ h)
              · simp at h
            · split at h
              · split at h
                · exact wfTxn_recurring _ _ _ (toExcept_ok _ _ h)
                · simp at h
              · simp at h
    · simp at h

/-- Counterexample for claim C8 as stated: `gmail_parser.py` stores the
boolean `False`, not the string `'False'`. -/
theorem claim_C8_counterexample :
    gmailParser.parse_transaction_details ccfg ("You paid Alice $12.34").data
        ccfg.venmo_email 1700000000000 [] 0
      = Except.ok (some ⟨("Alice").data, ("Expense").data, ("12.34").data, [], [],
          ("Venmo").data, PyVal.bool false⟩)
    ∧ PyVal.bool false ≠ PyVal.str ("False").data :=
  ⟨rfl, by decide⟩

/-- Witness for claim C8 on a concrete successfully parsed email. -/
theorem claim_C8_witness :
    utils.parse_transaction_details ccfg ("You paid Alice $12.34").data ccfg.venmo_email
        1700000000000 [] 0
      = Except.ok (some ⟨("Alice").data, ("Expense").data, ("12.34").data, [], [],
          ("Venmo").data, PyVal.str ("False").data⟩)
    ∧ Transaction.is_recurring ⟨("Alice").data, ("Expense").data, ("12.34").data, [], [],
          ("Venmo").data, PyVal.str ("False").data⟩ = PyVal.str ("False").data :=
  ⟨rfl, (claim_C8 ccfg ("You paid Alice $12.34").data ccfg.venmo_email 1700000000000 [] 0
    ⟨("Alice").data, ("Expense").data, ("12.34").data, [], [],
      ("Venmo").data, PyVal.str ("False").data⟩).1 rfl⟩

/-- Witness for claim C10 on a display-name header and on a bare address. -/
theorem claim_C10_witness :
    extract_email ("Venmo <venmo@venmo.com>").data = ("venmo@venmo.com").data
    ∧ extract_email ("venmo@venmo.com").data = ("venmo@venmo.co").data
    ∧ extract_email ("venmo@venmo.com").data ≠ ("venmo@venmo.com").data := by
  refine ⟨?_, ?_, ?_⟩
  · exact claim_C10.1 ("Venmo <venmo@venmo.com>").data ("Venmo ").data
      ("venmo@venmo.com").data [] (by decide) (by decide) (by decide) (by decide)
  · have h := claim_C10.2.1 ("venmo@venmo.com").data (by decide) (by decide)
    rw [h]
    rfl
  · exact claim_C10.2.2 ("venmo@venmo.com").data (by decide) (by decide) (by decide)
